import Mathlib

/-
Shallow embedding of the Shode execution engine (pkg/engine, the third file
concatenated into src/pkg/repl/repl.go) together with the pieces of
pkg/stdlib and pkg/types it uses.  External effects (the OS process
boundary, the security gate, the search path) are modelled as oracles in
an `Engine` record; the file system, environment stores and the command
cache are modelled as association lists threaded through an explicit
`EngineState`.  Go errors returned as the second component of a pair are
modelled with `Except String`; a fatal engine-level error is `Except.error`.
-/

namespace Shode

/-- Generic association-list lookup (models Go map read / keyed search). -/
def assocGet {α β : Type} [DecidableEq α] : List (α × β) → α → Option β
  | [], _ => none
  | (k, v) :: t, k' => if k = k' then some v else assocGet t k'

/-- Generic association-list update (models Go map write). -/
def assocSet {α β : Type} [DecidableEq α] : List (α × β) → α → β → List (α × β)
  | [], k, v => [(k, v)]
  | (k0, v0) :: t, k, v => if k0 = k then (k, v) :: t else (k0, v0) :: assocSet t k v

/-- Character-list version of Go `strings.HasPrefix`. -/
def hasPrefixList : List Char → List Char → Bool
  | [], _ => true
  | _ :: _, [] => false
  | a :: as, b :: bs => a = b && hasPrefixList as bs

/-- Character-list version of Go `strings.Contains`. -/
def containsList (n : List Char) : List Char → Bool
  | [] => hasPrefixList n []
  | c :: t => hasPrefixList n (c :: t) || containsList n t

/-- Go `strings.Contains(haystack, needle)`. -/
def goContains (haystack needle : String) : Bool :=
  containsList needle.toList haystack.toList

/-- ExecutionMode from the engine: Interpreted, Process, Hybrid
(`ModeInterpreted` is the Go zero value). -/
inductive ExecutionMode where
  | interpreted
  | process
  | hybrid
deriving DecidableEq, Repr

/-- types.RedirectNode: operator, target file, file descriptor. -/
structure RedirectNode where
  op : String
  file : String
  fd : Int
deriving DecidableEq, Repr

/-- types.CommandNode: name, args, optional redirect (positions dropped). -/
structure CommandNode where
  name : String
  args : List String
  redirect : Option RedirectNode := none
deriving DecidableEq, Repr

/-- The AST node variants dispatched by the engine.  `CommandNode` and
`PipeNode` are declared in src/pkg/types/ast.go; the declarations of
IfNode, ForNode, WhileNode, AssignmentNode and FunctionNode are not under
src (only their uses in the engine are), so their shapes are reconstructed
from those uses and spec section 3: IfNode carries a condition node, a
then-script and an optional else-script; ForNode a variable, an item list
and a body script; WhileNode a condition node and a body script;
AssignmentNode a name and a value.  A `ScriptNode` is its list of nodes. -/
inductive Node where
  | command (cmd : CommandNode)
  | pipe (left right : Node)
  | ifN (condition : Node) (thenBody : List Node) (elseBody : Option (List Node))
  | forN (varName : String) (list : List String) (body : List Node)
  | whileN (condition : Node) (body : List Node)
  | assignment (name value : String)
  | function

/-- Go `%T` tag of a node, used in the engine's error messages. -/
def nodeTypeName : Node → String
  | .command _ => "*types.CommandNode"
  | .pipe _ _ => "*types.PipeNode"
  | .ifN _ _ _ => "*types.IfNode"
  | .forN _ _ _ => "*types.ForNode"
  | .whileN _ _ => "*types.WhileNode"
  | .assignment _ _ => "*types.AssignmentNode"
  | .function => "*types.FunctionNode"

/-- engine.CommandResult (Duration dropped: wall-clock time is not
modelled).  `mode`'s default is the Go zero value `ModeInterpreted`. -/
structure CommandResult where
  command : CommandNode
  success : Bool
  exitCode : Int
  output : String := ""
  error : String := ""
  mode : ExecutionMode := .interpreted
deriving DecidableEq, Repr

/-- engine.ExecutionResult (Duration dropped).  Zero value: `success =
false`, `exitCode = 0`, empty output/error, no commands. -/
structure ExecutionResult where
  success : Bool := false
  exitCode : Int := 0
  output : String := ""
  error : String := ""
  commands : List CommandResult := []
deriving DecidableEq, Repr

/-- engine.PipelineResult. -/
structure PipelineResult where
  success : Bool
  exitCode : Int
  output : String
  error : String
  results : List CommandResult
deriving DecidableEq, Repr

/-- Outcome of `command.Run` / `command.Wait` at the OS boundary:
`noErr` (exit code 0), `exitErr c` (an `*exec.ExitError` carrying exit
code `c`), or `other msg` (any other error, e.g. spawn failure). -/
inductive RunErr where
  | noErr
  | exitErr (code : Int)
  | other (msg : String)
deriving DecidableEq, Repr

/-- What one external process attempt produces: the `Run`/`Wait` error
classification and the text the process writes to stdout and stderr. -/
structure RunOutcome where
  run : RunErr
  out : String
  errText : String
deriving DecidableEq, Repr

/-- Mutable world threaded through execution: file contents, directory
listings and existing directories (for ListFiles/ChangeDir), the OS
process environment (used by stdlib GetEnv/SetEnv), the engine's
EnvironmentManager variable map and working directory, the OS working
directory (stdlib WorkingDir/ChangeDir), the text printed to the host
stdout/stderr, the command cache, and a counter of external process
attempts so far (used to index the process oracle). -/
structure EngineState where
  fs : List (String × String) := []
  dirs : List String := []
  dirFiles : List (String × List String) := []
  osEnv : List (String × String) := []
  envMgr : List (String × String) := []
  workingDir : String := ""
  osCwd : String := ""
  stdout : String := ""
  stderr : String := ""
  cache : List ((String × List String) × CommandResult) := []
  procCalls : Nat := 0
deriving DecidableEq, Repr

/-- The engine's external collaborators, as oracles.
`security` models sandbox.SecurityChecker.CheckCommand (not under src;
modelled from the spec: an opaque accept/reject verdict per command,
`some msg` being a rejection).  `lookPath` models `exec.LookPath`
resolving a name on the search path.  `runProc n cmd stdin` is the
outcome of the `n`-th external process attempt; `pipeErr`, `startErr` and
`writeErr` model the distinct failure points of the with-input path
(StdinPipe creation, Start, writing stdin). -/
structure Engine where
  security : CommandNode → Option String
  lookPath : String → Bool
  runProc : Nat → CommandNode → Option String → RunOutcome
  pipeErr : Nat → CommandNode → Option String
  startErr : Nat → CommandNode → Option String
  writeErr : Nat → CommandNode → Option String

/-- Modelled from the spec: CommandCache.Get (the CommandCache
implementation is not under src, only its call sites are).  Spec section
4.3: key is the exact ordered `(name, args)` pair, no normalization.
TTL expiry and capacity eviction only remove entries, never add them, so
they are conservatively omitted. -/
def cacheGet (c : List ((String × List String) × CommandResult))
    (name : String) (args : List String) : Option CommandResult :=
  assocGet c (name, args)

/-- Modelled from the spec: CommandCache.Put, keyed by the exact ordered
`(name, args)` pair. -/
def cachePut (c : List ((String × List String) × CommandResult))
    (name : String) (args : List String) (r : CommandResult) :
    List ((String × List String) × CommandResult) :=
  assocSet c (name, args) r

/-- isStdLibFunction: membership in the closed map of 17 intrinsic names
(a Go map lookup whose zero value is false). -/
def isStdLibFunction (funcName : String) : Bool :=
  funcName = "Print" || funcName = "Println" || funcName = "Error" ||
  funcName = "Errorln" || funcName = "ReadFile" || funcName = "WriteFile" ||
  funcName = "ListFiles" || funcName = "FileExists" || funcName = "Contains" ||
  funcName = "Replace" || funcName = "ToUpper" || funcName = "ToLower" ||
  funcName = "Trim" || funcName = "GetEnv" || funcName = "SetEnv" ||
  funcName = "WorkingDir" || funcName = "ChangeDir"

/-- isExternalCommandAvailable: `exec.LookPath` succeeds. -/
def isExternalCommandAvailable (E : Engine) (cmd : String) : Bool :=
  E.lookPath cmd

/-- decideExecutionMode: Interpreted iff the name is a stdlib function;
otherwise Process whether or not the binary resolves (both the
`isExternalCommandAvailable` branch and the default return ModeProcess). -/
def decideExecutionMode (E : Engine) (cmd : CommandNode) : ExecutionMode :=
  if isStdLibFunction cmd.name then .interpreted
  else if isExternalCommandAvailable E cmd.name then .process
  else .process

/-- executeStdLibFunction: the 17-way switch dispatching to pkg/stdlib,
returning Go's `(string, error)` as `Except String String` plus the
updated state.  stdlib file/env operations are interpreted over the
state's maps; OS-generated error texts (file not found, chdir failure)
are modelled with fixed strings, the engine's own `fmt.Errorf` texts are
verbatim from the source. -/
def executeStdLibFunction (funcName : String) (args : List String)
    (st : EngineState) : Except String String × EngineState :=
  match funcName with
  | "Print" =>
    match args with
    | a :: _ => (.ok a, { st with stdout := st.stdout ++ a })
    | [] => (.ok "", st)
  | "Println" =>
    match args with
    | a :: _ => (.ok a, { st with stdout := st.stdout ++ a ++ "\n" })
    | [] => (.ok "", { st with stdout := st.stdout ++ "\n" })
  | "Error" =>
    match args with
    | a :: _ => (.ok a, { st with stderr := st.stderr ++ a })
    | [] => (.ok "", st)
  | "Errorln" =>
    match args with
    | a :: _ => (.ok a, { st with stderr := st.stderr ++ a ++ "\n" })
    | [] => (.ok "", { st with stderr := st.stderr ++ "\n" })
  | "ReadFile" =>
    match args with
    | [] => (.error "ReadFile requires filename argument", st)
    | f :: _ =>
      match assocGet st.fs f with
      | some content => (.ok content, st)
      | none => (.error ("failed to read file " ++ f ++ ": no such file or directory"), st)
  | "WriteFile" =>
    match args with
    | f :: content :: _ => (.ok "File written", { st with fs := assocSet st.fs f content })
    | _ => (.error "WriteFile requires filename and content arguments", st)
  | "ListFiles" =>
    let dir := match args with | [] => "." | d :: _ => d
    match assocGet st.dirFiles dir with
    | some files => (.ok (String.intercalate "\n" files), st)
    | none => (.error ("failed to list directory " ++ dir ++ ": no such file or directory"), st)
  | "FileExists" =>
    match args with
    | [] => (.error "FileExists requires filename argument", st)
    | f :: _ => (.ok (if (assocGet st.fs f).isSome then "true" else "false"), st)
  | "Contains" =>
    match args with
    | h :: n :: _ => (.ok (if goContains h n then "true" else "false"), st)
    | _ => (.error "Contains requires haystack and needle arguments", st)
  | "Replace" =>
    match args with
    | s :: o :: n :: _ => (.ok (s.replace o n), st)
    | _ => (.error "Replace requires string, old, and new arguments", st)
  | "ToUpper" =>
    match args with
    | [] => (.ok "", st)
    | a :: _ => (.ok a.toUpper, st)
  | "ToLower" =>
    match args with
    | [] => (.ok "", st)
    | a :: _ => (.ok a.toLower, st)
  | "Trim" =>
    match args with
    | [] => (.ok "", st)
    | a :: _ => (.ok a.trim, st)
  | "GetEnv" =>
    match args with
    | [] => (.error "GetEnv requires environment variable name", st)
    | k :: _ => (.ok ((assocGet st.osEnv k).getD ""), st)
  | "SetEnv" =>
    match args with
    | k :: v :: _ => (.ok "Environment variable set", { st with osEnv := assocSet st.osEnv k v })
    | _ => (.error "SetEnv requires key and value arguments", st)
  | "WorkingDir" => (.ok st.osCwd, st)
  | "ChangeDir" =>
    match args with
    | [] => (.error "ChangeDir requires directory path", st)
    | d :: _ =>
      if st.dirs.contains d then (.ok "Directory changed", { st with osCwd := d })
      else (.error ("chdir " ++ d ++ ": no such file or directory"), st)
  | _ => (.error ("unknown standard library function: " ++ funcName), st)

/-- executeInterpreted: run the stdlib function; an error becomes a
failed CommandResult with exit code 1, success becomes exit code 0 with
the function's output. -/
def executeInterpreted (cmd : CommandNode) (st : EngineState) :
    CommandResult × EngineState :=
  match executeStdLibFunction cmd.name cmd.args st with
  | (.error msg, st') =>
    ({ command := cmd, success := false, exitCode := 1, error := msg }, st')
  | (.ok out, st') =>
    ({ command := cmd, success := true, exitCode := 0, output := out }, st')

/-- Where a stream of the child process is bound after setupRedirect:
the capturing strings.Builder, nowhere (a nil stdio slot), or a file. -/
inductive OutDest where
  | builder
  | discard
  | toFile (name : String)
deriving DecidableEq, Repr

/-- The stdio wiring produced by setupRedirect together with the file
system after the open/create/truncate side effects of setup. -/
structure IOPlan where
  stdinText : Option String
  stdoutDest : OutDest
  stderrDest : OutDest
  fs : List (String × String)
deriving DecidableEq, Repr

/-- setupRedirect: per-operator stdio wiring.  `>` creates/truncates the
target and binds stdout (fd 0 or 1) or stderr (fd 2) to it; `>>` opens
or creates for append; `<` opens the target for stdin, failing if it
does not exist; `2>&1` aliases stderr to the (here unbound) stdout slot;
`&>` binds both streams to a freshly truncated target; any other
operator is an error.  File-descriptor lifetimes (the deferred Close
calls) are below the abstraction level of this model; writes by the
child are modelled as appends to the bound file's content. -/
def setupRedirect (r : RedirectNode) (fs : List (String × String)) :
    Except String IOPlan :=
  match r.op with
  | ">" =>
    let fs' := assocSet fs r.file ""
    if r.fd = 1 || r.fd = 0 then .ok ⟨none, .toFile r.file, .discard, fs'⟩
    else if r.fd = 2 then .ok ⟨none, .discard, .toFile r.file, fs'⟩
    else .ok ⟨none, .discard, .discard, fs'⟩
  | ">>" =>
    let fs' := if (assocGet fs r.file).isSome then fs else assocSet fs r.file ""
    if r.fd = 1 || r.fd = 0 then .ok ⟨none, .toFile r.file, .discard, fs'⟩
    else if r.fd = 2 then .ok ⟨none, .discard, .toFile r.file, fs'⟩
    else .ok ⟨none, .discard, .discard, fs'⟩
  | "<" =>
    match assocGet fs r.file with
    | some content => .ok ⟨some content, .discard, .discard, fs⟩
    | none => .error ("failed to open file " ++ r.file ++ ": no such file or directory")
  | "2>&1" => .ok ⟨none, .discard, .discard, fs⟩
  | "&>" => .ok ⟨none, .toFile r.file, .toFile r.file, assocSet fs r.file ""⟩
  | op => .error ("unsupported redirect operator: " ++ op)

/-- Append `text` to the file bound by `dest` (no-op for builder/nil). -/
def writeOut (dest : OutDest) (text : String) (fs : List (String × String)) :
    List (String × String) :=
  match dest with
  | .toFile f => assocSet fs f ((assocGet fs f).getD "" ++ text)
  | _ => fs

/-- Exit-code extraction after `Run`: 0 when err is nil, the ExitError's
code, or the synthetic 1 for any other error. -/
def runExitCode : RunErr → Int
  | .noErr => 0
  | .exitErr c => c
  | .other _ => 1

/-- Whether the child process actually ran (a non-ExitError from Run
means it never started, so it wrote nothing). -/
def RunErr.ran : RunErr → Bool
  | .other _ => false
  | _ => true

/-- executeProcess: consult the cache (only when there is no redirect),
otherwise wire redirections, run the external process through the
oracle, place its output into the builders or the bound files, classify
the error into exit code and success, and cache the result when the run
succeeded and there is no redirect.  A redirect-setup failure is a
failed CommandResult with exit code 1.  The Run error's own text is not
copied into the result: `Error` is the captured stderr (empty when
redirected or when the process never ran). -/
def executeProcess (E : Engine) (cmd : CommandNode) (st : EngineState) :
    CommandResult × EngineState :=
  let hit := match cmd.redirect with
    | none => cacheGet st.cache cmd.name cmd.args
    | some _ => none
  match hit with
  | some cached => (cached, st)
  | none =>
    let plan? : Except String IOPlan := match cmd.redirect with
      | none => .ok ⟨none, .builder, .builder, st.fs⟩
      | some r => setupRedirect r st.fs
    match plan? with
    | .error msg =>
      ({ command := cmd, success := false, exitCode := 1,
         error := "redirect error: " ++ msg }, st)
    | .ok plan =>
      let o := E.runProc st.procCalls cmd plan.stdinText
      let outText := if o.run.ran then o.out else ""
      let errText := if o.run.ran then o.errText else ""
      let result : CommandResult :=
        { command := cmd
          success := o.run = .noErr
          exitCode := runExitCode o.run
          output := match plan.stdoutDest with | .builder => outText | _ => ""
          error := match plan.stderrDest with | .builder => errText | _ => "" }
      let fs' := writeOut plan.stderrDest errText (writeOut plan.stdoutDest outText plan.fs)
      let st₁ := { st with fs := fs', procCalls := st.procCalls + 1 }
      let st₂ := match o.run, cmd.redirect with
        | .noErr, none => { st₁ with cache := cachePut st₁.cache cmd.name cmd.args result }
        | _, _ => st₁
      (result, st₂)

/-- executeHybrid currently defaults to process execution. -/
def executeHybrid (E : Engine) (cmd : CommandNode) (st : EngineState) :
    CommandResult × EngineState :=
  executeProcess E cmd st

/-- ExecuteCommand: security check first (a rejection is an in-band
failed CommandResult with exit code 1 and the Go zero Mode), then
dispatch on the decided mode and stamp the mode on the result.  None of
the dispatched paths can return a fatal error, so the Go `(result, nil)`
pair is modelled as a plain pair. -/
def ExecuteCommand (E : Engine) (cmd : CommandNode) (st : EngineState) :
    CommandResult × EngineState :=
  match E.security cmd with
  | some msg =>
    ({ command := cmd, success := false, exitCode := 1,
       error := "Security violation: " ++ msg }, st)
  | none =>
    let mode := decideExecutionMode E cmd
    let (r, st') := match mode with
      | .interpreted => executeInterpreted cmd st
      | .process => executeProcess E cmd st
      | .hybrid => executeHybrid E cmd st
    ({ r with mode := mode }, st')

/-- executeProcessWithInput: a StdinPipe failure or a stdin-write failure
is fatal; a Start failure is an in-band failed CommandResult with exit
code 1 whose Error is the start error's text; otherwise the process runs
with the supplied input, both streams captured by builders (this path
never applies redirections and never touches the cache). -/
def executeProcessWithInput (E : Engine) (cmd : CommandNode) (input : String)
    (st : EngineState) : Except String (CommandResult × EngineState) :=
  match E.pipeErr st.procCalls cmd with
  | some m => .error ("failed to create stdin pipe: " ++ m)
  | none =>
    match E.startErr st.procCalls cmd with
    | some m =>
      .ok ({ command := cmd, success := false, exitCode := 1, error := m },
           { st with procCalls := st.procCalls + 1 })
    | none =>
      match E.writeErr st.procCalls cmd with
      | some m => .error ("failed to write to stdin: " ++ m)
      | none =>
        let o := E.runProc st.procCalls cmd (some input)
        .ok ({ command := cmd
               success := o.run = .noErr
               exitCode := runExitCode o.run
               output := o.out
               error := o.errText },
             { st with procCalls := st.procCalls + 1 })

/-- ExecuteCommandWithInput: security check, then always the with-input
process path with the result stamped ModeProcess; no mode decision and
no cache involvement. -/
def ExecuteCommandWithInput (E : Engine) (cmd : CommandNode) (input : String)
    (st : EngineState) : Except String (CommandResult × EngineState) :=
  match E.security cmd with
  | some msg =>
    .ok ({ command := cmd, success := false, exitCode := 1,
           error := "Security violation: " ++ msg }, st)
  | none =>
    match executeProcessWithInput E cmd input st with
    | .error e => .error e
    | .ok (r, st') => .ok ({ r with mode := .process }, st')

/-- collectPipelineCommands: in-order flattening of the pipe tree —
left subtree's commands, then the right subtree's; a command is a leaf;
any other node contributes nothing. -/
def collectPipelineCommands : Node → List CommandNode
  | .pipe l r => collectPipelineCommands l ++ collectPipelineCommands r
  | .command c => [c]
  | _ => []

/-- The loop body of ExecutePipeline: the first stage runs without
supplied stdin, every later stage runs with the previous stage's
captured output as stdin; the pipeline stops at the first failing stage
with that stage's exit code, output and error and the results so far; if
every stage succeeds the result is exit code 0 with the last stage's
output.  On an empty stage list the Go code indexes `results[-1]` and
panics; that is modelled as a distinguished error. -/
def pipelineLoop (E : Engine) : List CommandNode → Bool → String →
    List CommandResult → EngineState → Except String (PipelineResult × EngineState)
  | [], _, _, acc, st =>
    match acc.getLast? with
    | none => .error "panic: runtime error: index out of range"
    | some last =>
      .ok ({ success := true, exitCode := 0, output := last.output,
             error := "", results := acc }, st)
  | c :: rest, isFirst, prevOut, acc, st =>
    let step : Except String (CommandResult × EngineState) :=
      if isFirst then .ok (ExecuteCommand E c st)
      else ExecuteCommandWithInput E c prevOut st
    match step with
    | .error e => .error e
    | .ok (r, st') =>
      let acc' := acc ++ [r]
      if r.success then pipelineLoop E rest false r.output acc' st'
      else
        .ok ({ success := false, exitCode := r.exitCode, output := r.output,
               error := r.error, results := acc' }, st')

/-- ExecutePipeline: flatten the pipe tree, then drive the stages. -/
def ExecutePipeline (E : Engine) (pipeline : Node) (st : EngineState) :
    Except String (PipelineResult × EngineState) :=
  pipelineLoop E (collectPipelineCommands pipeline) true "" [] st

/-- evaluateCondition: a CommandNode condition is executed and is true
when it succeeded with exit code 0; any other node kind is a fatal
engine-level error. -/
def evaluateCondition (E : Engine) (condition : Node) (st : EngineState) :
    Except String (Bool × EngineState) :=
  match condition with
  | .command c =>
    let (r, st') := ExecuteCommand E c st
    .ok (r.success && r.exitCode == 0, st')
  | cond => .error ("unsupported condition node type: " ++ nodeTypeName cond)

/-- Lower bound used by the termination measures below. -/
theorem Node.one_le_sizeOf (n : Node) : 1 ≤ sizeOf n := by
  cases n <;> simp_arith

mutual

/-- The body of Execute's for-loop over `script.Nodes`, carrying the
mutable `result` as `acc`.  Faithful to the Go source: the `break`
statements in the failing branches sit inside the `switch`, so they exit
only the switch and iteration over the remaining nodes continues; the
trailing `result.Success = true` then overwrites the failure flag, so on
every non-fatal path the returned result has `success = true` while
`exitCode` keeps the last failing node's code. -/
def ExecuteNodes (E : Engine) (nodes : List Node) (acc : ExecutionResult)
    (st : EngineState) : Except String (ExecutionResult × EngineState) :=
  match nodes with
  | [] => .ok ({ acc with success := true }, st)
  | node :: rest =>
    match node with
    | .command c =>
      let (r, st₁) := ExecuteCommand E c st
      let acc₁ := { acc with commands := acc.commands ++ [r] }
      let acc₂ := if r.success then acc₁
                  else { acc₁ with success := false, exitCode := r.exitCode }
      ExecuteNodes E rest acc₂ st₁
    | .pipe l rgt =>
      match ExecutePipeline E (.pipe l rgt) st with
      | .error e => .error e
      | .ok (pr, st₁) =>
        let acc₁ := { acc with commands := acc.commands ++ pr.results }
        let acc₂ := if pr.success then acc₁
                    else { acc₁ with success := false, exitCode := pr.exitCode }
        ExecuteNodes E rest acc₂ st₁
    | .ifN c t e =>
      match ExecuteIf E c t e st with
      | .error err => .error err
      | .ok (ir, st₁) =>
        let acc₁ := { acc with commands := acc.commands ++ ir.commands }
        let acc₂ := if ir.success then acc₁
                    else { acc₁ with success := false, exitCode := ir.exitCode }
        ExecuteNodes E rest acc₂ st₁
    | .forN v items body =>
      match ExecuteFor E v items body {} st with
      | .error err => .error err
      | .ok (fr, st₁) =>
        let acc₁ := { acc with commands := acc.commands ++ fr.commands }
        let acc₂ := if fr.success then acc₁
                    else { acc₁ with success := false, exitCode := fr.exitCode }
        ExecuteNodes E rest acc₂ st₁
    | .whileN c body =>
      match ExecuteWhileAux E 10000 c body {} st with
      | .error err => .error err
      | .ok (wr, st₁) =>
        let acc₁ := { acc with commands := acc.commands ++ wr.commands }
        let acc₂ := if wr.success then acc₁
                    else { acc₁ with success := false, exitCode := wr.exitCode }
        ExecuteNodes E rest acc₂ st₁
    | .assignment n v =>
      ExecuteNodes E rest acc { st with envMgr := assocSet st.envMgr n v }
    | .function =>
      ExecuteNodes E rest acc st
termination_by (sizeOf nodes, 0)

/-- ExecuteIf: evaluate the condition (fatal for non-command condition
kinds), then run the then-script on true, the else-script on false when
present, and otherwise return a no-op success result. -/
def ExecuteIf (E : Engine) (condition : Node) (thenBody : List Node)
    (elseBody : Option (List Node)) (st : EngineState) :
    Except String (ExecutionResult × EngineState) :=
  match evaluateCondition E condition st with
  | .error e => .error e
  | .ok (b, st₁) =>
    if b then ExecuteNodes E thenBody {} st₁
    else
      match elseBody with
      | some els => ExecuteNodes E els {} st₁
      | none => .ok ({ success := true, exitCode := 0, commands := [] }, st₁)
termination_by (sizeOf condition + sizeOf thenBody + sizeOf elseBody, 0)
decreasing_by
all_goals simp_wf
· exact Prod.Lex.left _ _ (by have h := Node.one_le_sizeOf condition; omega)
· exact Prod.Lex.left _ _ (by have h := Node.one_le_sizeOf condition; omega)

/-- ExecuteFor: bind each item to the loop variable in the environment
manager, execute the body, accumulate its command results, and stop with
a failing result on the first failing body execution. -/
def ExecuteFor (E : Engine) (varName : String) (items : List String)
    (body : List Node) (acc : ExecutionResult) (st : EngineState) :
    Except String (ExecutionResult × EngineState) :=
  match items with
  | [] => .ok ({ acc with success := true, exitCode := 0 }, st)
  | item :: rest =>
    let st₁ := { st with envMgr := assocSet st.envMgr varName item }
    match ExecuteNodes E body {} st₁ with
    | .error e => .error e
    | .ok (lr, st₂) =>
      let acc₁ := { acc with commands := acc.commands ++ lr.commands }
      if lr.success then ExecuteFor E varName rest body acc₁ st₂
      else .ok ({ acc₁ with success := false, exitCode := lr.exitCode }, st₂)
termination_by (sizeOf body + 1, items.length)

/-- ExecuteWhile's loop, with `fuel` the number of iterations still
allowed (Go: `maxIterations - iterations`, maxIterations = 10000).  The
iteration-ceiling check precedes the condition evaluation, so fuel 0 is
the fatal error and each surviving entry evaluates the condition once. -/
def ExecuteWhileAux (E : Engine) (fuel : Nat) (condition : Node)
    (body : List Node) (acc : ExecutionResult) (st : EngineState) :
    Except String (ExecutionResult × EngineState) :=
  match fuel with
  | 0 => .error "while loop exceeded maximum iterations (10000)"
  | fuel' + 1 =>
    match evaluateCondition E condition st with
    | .error e => .error e
    | .ok (b, st₁) =>
      if b then
        match ExecuteNodes E body {} st₁ with
        | .error e => .error e
        | .ok (lr, st₂) =>
          let acc₁ := { acc with commands := acc.commands ++ lr.commands }
          if lr.success then ExecuteWhileAux E fuel' condition body acc₁ st₂
          else .ok ({ acc₁ with success := false, exitCode := lr.exitCode }, st₂)
      else .ok ({ acc with success := true, exitCode := 0 }, st₁)
termination_by (sizeOf condition + sizeOf body, fuel)
decreasing_by
all_goals simp_wf
· exact Prod.Lex.left _ _ (by have h := Node.one_le_sizeOf condition; omega)
· exact Prod.Lex.right _ (by omega)

end

/-- Execute: run a script's nodes starting from the zero-valued result. -/
def Execute (E : Engine) (script : List Node) (st : EngineState) :
    Except String (ExecutionResult × EngineState) :=
  ExecuteNodes E script {} st

/-- ExecuteWhile: the while loop with its 10,000-iteration ceiling. -/
def ExecuteWhile (E : Engine) (condition : Node) (body : List Node)
    (st : EngineState) : Except String (ExecutionResult × EngineState) :=
  ExecuteWhileAux E 10000 condition body {} st

/-- Specification-side flattening, written from the spec's words (spec
4.1): the ordered stage list of a pipe tree is obtained by in-order
traversal, fully resolving the left subtree's commands before the right
subtree's, with each command a leaf. -/
def specInOrderCommands : Node → List CommandNode
  | .pipe left right => specInOrderCommands left ++ specInOrderCommands right
  | .command c => [c]
  | _ => []

/-- Specification-side stage driver for a non-empty pipeline, written
from the spec's words (spec 4.1): the head stage runs with the given
stdin (`none` = ambient stdin, i.e. a plain command execution; `some s`
= supplied input `s`); a failing stage halts the pipeline, which returns
that stage's exit code, output and error together with the stage results
accumulated so far; when the stage succeeds and it is the last one the
pipeline returns exit code 0 and that stage's output, and otherwise the
next stage runs with this stage's fully captured stdout as its stdin. -/
def specRunStages (E : Engine) : CommandNode → List CommandNode → Option String →
    List CommandResult → EngineState → Except String (PipelineResult × EngineState)
  | c, rest, stdin, acc, st =>
    let step : Except String (CommandResult × EngineState) :=
      match stdin with
      | none => .ok (ExecuteCommand E c st)
      | some inp => ExecuteCommandWithInput E c inp st
    match step with
    | .error e => .error e
    | .ok (r, st') =>
      if r.success then
        match rest with
        | [] =>
          .ok ({ success := true, exitCode := 0, output := r.output,
                 error := "", results := acc ++ [r] }, st')
        | c' :: rest' => specRunStages E c' rest' (some r.output) (acc ++ [r]) st'
      else
        .ok ({ success := false, exitCode := r.exitCode, output := r.output,
               error := r.error, results := acc ++ [r] }, st')

section Fixtures

/-- A benign engine for concrete evaluations: the security gate accepts
everything, every name resolves on the search path, every external
process succeeds printing `out`, and the with-input plumbing never
fails. -/
def E0 : Engine where
  security := fun _ => none
  lookPath := fun _ => true
  runProc := fun _ _ _ => ⟨.noErr, "out", ""⟩
  pipeErr := fun _ _ => none
  startErr := fun _ _ => none
  writeErr := fun _ _ => none

/-- The empty starting state. -/
def st0 : EngineState := {}

end Fixtures

/-! Claim theorems. -/

/-- C5.  decideExecutionMode returns Interpreted exactly when the
command's name is one of the 17 enumerated intrinsic names, and resolves
every other name to Process — for every engine, hence in particular
whatever `lookPath` says about a same-named external binary. -/
theorem C5_mode_selection (E : Engine) (cmd : CommandNode) :
    decideExecutionMode E cmd =
      (if cmd.name ∈ ["Print", "Println", "Error", "Errorln", "ReadFile",
          "WriteFile", "ListFiles", "FileExists", "Contains", "Replace",
          "ToUpper", "ToLower", "Trim", "GetEnv", "SetEnv", "WorkingDir",
          "ChangeDir"] then ExecutionMode.interpreted else ExecutionMode.process) := by
  by_cases h : cmd.name ∈ ["Print", "Println", "Error", "Errorln", "ReadFile",
      "WriteFile", "ListFiles", "FileExists", "Contains", "Replace",
      "ToUpper", "ToLower", "Trim", "GetEnv", "SetEnv", "WorkingDir",
      "ChangeDir"]
  · rw [if_pos h]
    have hs : isStdLibFunction cmd.name = true := by
      simp only [List.mem_cons, List.not_mem_nil, or_false] at h
      rcases h with h | h | h | h | h | h | h | h | h | h | h | h | h | h | h | h | h <;>
        simp [isStdLibFunction, h]
    simp [decideExecutionMode, hs]
  · rw [if_neg h]
    have hs : isStdLibFunction cmd.name = false := by
      simp only [List.mem_cons, List.not_mem_nil, or_false, not_or] at h
      simp [isStdLibFunction, h.1, h.2.1, h.2.2.1, h.2.2.2.1, h.2.2.2.2.1,
        h.2.2.2.2.2.1, h.2.2.2.2.2.2.1, h.2.2.2.2.2.2.2.1, h.2.2.2.2.2.2.2.2.1,
        h.2.2.2.2.2.2.2.2.2.1, h.2.2.2.2.2.2.2.2.2.2.1, h.2.2.2.2.2.2.2.2.2.2.2.1,
        h.2.2.2.2.2.2.2.2.2.2.2.2.1, h.2.2.2.2.2.2.2.2.2.2.2.2.2.1,
        h.2.2.2.2.2.2.2.2.2.2.2.2.2.2.1, h.2.2.2.2.2.2.2.2.2.2.2.2.2.2.2.1,
        h.2.2.2.2.2.2.2.2.2.2.2.2.2.2.2.2]
    simp [decideExecutionMode, hs, isExternalCommandAvailable]

/-- Any non-intrinsic name resolves to process mode (both branches of the
external-availability check return ModeProcess). -/
theorem decideExecutionMode_process (E : Engine) (cmd : CommandNode)
    (h : isStdLibFunction cmd.name = false) :
    decideExecutionMode E cmd = .process := by
  simp [decideExecutionMode, h, isExternalCommandAvailable]

/-- C10.  Interpreted intrinsics with missing required arguments fail
in-band with exit code 1 (ReadFile, FileExists, GetEnv and ChangeDir
need one argument; WriteFile, Contains and SetEnv need two; Replace
needs three), while Print, Println, Error, Errorln, ToUpper, ToLower and
Trim accept an empty argument list and succeed with exit code 0 and
empty output. -/
theorem C10_intrinsic_arity (st : EngineState) :
    (∀ name, (name = "ReadFile" ∨ name = "FileExists" ∨ name = "GetEnv" ∨
        name = "ChangeDir") →
      (executeInterpreted ⟨name, [], none⟩ st).1.success = false ∧
      (executeInterpreted ⟨name, [], none⟩ st).1.exitCode = 1) ∧
    (∀ name args, (name = "WriteFile" ∨ name = "Contains" ∨ name = "SetEnv") →
      args.length < 2 →
      (executeInterpreted ⟨name, args, none⟩ st).1.success = false ∧
      (executeInterpreted ⟨name, args, none⟩ st).1.exitCode = 1) ∧
    (∀ args, args.length < 3 →
      (executeInterpreted ⟨"Replace", args, none⟩ st).1.success = false ∧
      (executeInterpreted ⟨"Replace", args, none⟩ st).1.exitCode = 1) ∧
    (∀ name, (name = "Print" ∨ name = "Println" ∨ name = "Error" ∨
        name = "Errorln" ∨ name = "ToUpper" ∨ name = "ToLower" ∨ name = "Trim") →
      (executeInterpreted ⟨name, [], none⟩ st).1.success = true ∧
      (executeInterpreted ⟨name, [], none⟩ st).1.exitCode = 0 ∧
      (executeInterpreted ⟨name, [], none⟩ st).1.output = "") := by
  refine ⟨?_, ?_, ?_, ?_⟩
  · rintro name (rfl | rfl | rfl | rfl) <;>
      simp [executeInterpreted, executeStdLibFunction]
  · rintro name args (rfl | rfl | rfl) hlen <;>
      rcases args with _ | ⟨a, _ | ⟨b, t⟩⟩ <;>
      first
        | (exfalso; simp only [List.length_cons] at hlen; omega)
        | simp_all [executeInterpreted, executeStdLibFunction]
  · rintro args hlen
    rcases args with _ | ⟨a, _ | ⟨b, _ | ⟨c, t⟩⟩⟩ <;>
      first
        | (exfalso; simp only [List.length_cons] at hlen; omega)
        | simp_all [executeInterpreted, executeStdLibFunction]
  · rintro name (rfl | rfl | rfl | rfl | rfl | rfl | rfl) <;>
      simp [executeInterpreted, executeStdLibFunction]

/-- C10 witness: concrete instances of both halves of the arity claim. -/
theorem C10_intrinsic_arity_witness :
    ((executeInterpreted ⟨"ReadFile", [], none⟩ st0).1.success = false ∧
     (executeInterpreted ⟨"ReadFile", [], none⟩ st0).1.exitCode = 1) ∧
    ((executeInterpreted ⟨"Contains", ["x"], none⟩ st0).1.success = false ∧
     (executeInterpreted ⟨"Contains", ["x"], none⟩ st0).1.exitCode = 1) ∧
    ((executeInterpreted ⟨"Replace", ["x", "y"], none⟩ st0).1.success = false ∧
     (executeInterpreted ⟨"Replace", ["x", "y"], none⟩ st0).1.exitCode = 1) ∧
    ((executeInterpreted ⟨"Trim", [], none⟩ st0).1.success = true ∧
     (executeInterpreted ⟨"Trim", [], none⟩ st0).1.exitCode = 0 ∧
     (executeInterpreted ⟨"Trim", [], none⟩ st0).1.output = "") :=
  ⟨(C10_intrinsic_arity st0).1 "ReadFile" (Or.inl rfl),
   (C10_intrinsic_arity st0).2.1 "Contains" ["x"] (Or.inr (Or.inl rfl)) (by decide),
   (C10_intrinsic_arity st0).2.2.1 ["x", "y"] (by decide),
   (C10_intrinsic_arity st0).2.2.2 "Trim" (by tauto)⟩

/-- The `Print "X" > f` command of the redirect round-trip example. -/
def printRedirCmd : CommandNode := ⟨"Print", ["X"], some ⟨">", "f", 1⟩⟩

/-- C7 counterexample: `Print` is an intrinsic, so `Print "X" > f` runs
in interpreted mode, which never applies the redirect — from the empty
state the independent read of `f` afterwards does not yield "X" (the
file is never created), contradicting the claimed round-trip. -/
theorem C7_redirect_roundtrip_counterexample :
    assocGet ((ExecuteCommand E0 printRedirCmd st0).2).fs "f" ≠ some "X" := by
  simp [ExecuteCommand, E0, printRedirCmd, decideExecutionMode, isStdLibFunction,
    executeInterpreted, executeStdLibFunction, st0, assocGet]

/-- C7 amended: executing `Print "X"` with any redirect attached runs in
interpreted mode, which ignores the redirect entirely — the command
still succeeds with output "X" and the only state change is the text
printed to the host stdout; the file system (hence the redirect target)
is untouched, for `>` and `>>` alike. -/
theorem C7_amended_interpreted_ignores_redirect (E : Engine) (st : EngineState)
    (r : RedirectNode) (h : E.security ⟨"Print", ["X"], some r⟩ = none) :
    ExecuteCommand E ⟨"Print", ["X"], some r⟩ st =
      ({ command := ⟨"Print", ["X"], some r⟩, success := true, exitCode := 0,
         output := "X" },
       { st with stdout := st.stdout ++ "X" }) := by
  simp [ExecuteCommand, h, decideExecutionMode, isStdLibFunction,
    executeInterpreted, executeStdLibFunction]

/-- C7 amended witness: the `>>` instance at the empty state. -/
theorem C7_amended_witness :
    ExecuteCommand E0 ⟨"Print", ["X"], some ⟨">>", "f", 1⟩⟩ st0 =
      ({ command := ⟨"Print", ["X"], some ⟨">>", "f", 1⟩⟩, success := true,
         exitCode := 0, output := "X" },
       { st0 with stdout := st0.stdout ++ "X" }) :=
  C7_amended_interpreted_ignores_redirect E0 st0 ⟨">>", "f", 1⟩ rfl

/-- C9.  ExecuteCommandWithInput never touches the command cache — the
final cache equals the initial cache and the outcome is unchanged under
an arbitrary replacement of the initial cache — and, whenever the
security gate accepts, it is exactly the with-input external-process
path with the result stamped ModeProcess, with no condition whatsoever
on the command's name (so also for names in the intrinsic registry). -/
theorem C9_with_input_bypasses_cache_and_mode (E : Engine) (cmd : CommandNode)
    (input : String) (st : EngineState)
    (c' : List ((String × List String) × CommandResult)) :
    (∀ r st', ExecuteCommandWithInput E cmd input st = .ok (r, st') →
      st'.cache = st.cache) ∧
    (ExecuteCommandWithInput E cmd input { st with cache := c' } =
      (ExecuteCommandWithInput E cmd input st).map
        (fun p => (p.1, { p.2 with cache := c' }))) ∧
    (E.security cmd = none →
      ExecuteCommandWithInput E cmd input st =
        (executeProcessWithInput E cmd input st).map
          (fun p => ({ p.1 with mode := ExecutionMode.process }, p.2))) ∧
    (∀ r st', E.security cmd = none →
      ExecuteCommandWithInput E cmd input st = .ok (r, st') →
      r.mode = ExecutionMode.process) := by
  refine ⟨?_, ?_, ?_, ?_⟩
  · intro r st' h
    unfold ExecuteCommandWithInput executeProcessWithInput at h
    rcases hs : E.security cmd with _ | m <;> rw [hs] at h
    · rcases h1 : E.pipeErr st.procCalls cmd with _ | m1 <;> rw [h1] at h
      · rcases h2 : E.startErr st.procCalls cmd with _ | m2 <;> rw [h2] at h
        · rcases h3 : E.writeErr st.procCalls cmd with _ | m3 <;> rw [h3] at h
          · simp at h
            rw [← h.2]
          · simp at h
        · simp at h
          rw [← h.2]
      · simp at h
    · simp at h
      rw [← h.2]
  · unfold ExecuteCommandWithInput executeProcessWithInput
    rcases hs : E.security cmd with _ | m
    · rcases h1 : E.pipeErr st.procCalls cmd with _ | m1
      · rcases h2 : E.startErr st.procCalls cmd with _ | m2
        · rcases h3 : E.writeErr st.procCalls cmd with _ | m3 <;> simp [Except.map]
        · simp [Except.map]
      · simp [Except.map]
    · simp [Except.map]
  · intro hs
    unfold ExecuteCommandWithInput
    rw [hs]
    rcases h : executeProcessWithInput E cmd input st with e | ⟨r, st'⟩ <;>
      simp [Except.map]
  · intro r st' hs h
    unfold ExecuteCommandWithInput at h
    rw [hs] at h
    rcases hp : executeProcessWithInput E cmd input st with e | ⟨r1, st1⟩ <;>
      rw [hp] at h <;> simp at h
    rw [← h.1]

/-- C9 witness: a pipeline-style stage named like the intrinsic `Print`
still goes through the with-input process path. -/
theorem C9_witness :
    ExecuteCommandWithInput E0 ⟨"Print", ["x"], none⟩ "in" st0 =
      (executeProcessWithInput E0 ⟨"Print", ["x"], none⟩ "in" st0).map
        (fun p => ({ p.1 with mode := ExecutionMode.process }, p.2)) :=
  (C9_with_input_bypasses_cache_and_mode E0 ⟨"Print", ["x"], none⟩ "in" st0 []).2.2.1 rfl

/-- An engine whose security gate rejects everything. -/
def EsecReject : Engine :=
  { E0 with security := fun _ => some "dangerous command: rm" }

/-- An engine whose external processes fail to spawn. -/
def EspawnFail : Engine :=
  { E0 with runProc := fun _ _ _ =>
      ⟨.other "exec: executable file not found in $PATH", "", ""⟩ }

/-- An engine whose external processes exit with code 7. -/
def Eexit7 : Engine :=
  { E0 with runProc := fun _ _ _ => ⟨.exitErr 7, "", "boom"⟩ }

/-- C4.  Each recoverable failure of ExecuteCommand is an in-band
CommandResult, never a fatal error (ExecuteCommand is total on results):
a security rejection yields exit code 1 with the violation text and no
other state change; a failed or unsupported redirect configuration
yields exit code 1 with the redirect error text; a process spawn failure
(a non-ExitError from Run) yields success=false with synthetic exit code
1; and a process-mode failure carrying an ExitError surfaces the real
process exit code. -/
theorem C4_recoverable_failures_in_band (E : Engine) (cmd : CommandNode)
    (st : EngineState) :
    (∀ m, E.security cmd = some m →
      ExecuteCommand E cmd st =
        ({ command := cmd, success := false, exitCode := 1,
           error := "Security violation: " ++ m }, st)) ∧
    (∀ r msg, E.security cmd = none → isStdLibFunction cmd.name = false →
      cmd.redirect = some r → setupRedirect r st.fs = .error msg →
      ExecuteCommand E cmd st =
        ({ command := cmd, success := false, exitCode := 1,
           error := "redirect error: " ++ msg, mode := .process }, st)) ∧
    (∀ m out errT, E.security cmd = none → isStdLibFunction cmd.name = false →
      cmd.redirect = none → cacheGet st.cache cmd.name cmd.args = none →
      E.runProc st.procCalls cmd none = ⟨.other m, out, errT⟩ →
      (ExecuteCommand E cmd st).1.success = false ∧
      (ExecuteCommand E cmd st).1.exitCode = 1) ∧
    (∀ c out errT, E.security cmd = none → isStdLibFunction cmd.name = false →
      cmd.redirect = none → cacheGet st.cache cmd.name cmd.args = none →
      E.runProc st.procCalls cmd none = ⟨.exitErr c, out, errT⟩ →
      (ExecuteCommand E cmd st).1.success = false ∧
      (ExecuteCommand E cmd st).1.exitCode = c) := by
  refine ⟨?_, ?_, ?_, ?_⟩
  · intro m hs
    simp [ExecuteCommand, hs]
  · intro r msg hs hstd hred hsetup
    simp [ExecuteCommand, hs, decideExecutionMode_process E cmd hstd,
      executeProcess, hred, hsetup]
  · intro m out errT hs hstd hred hcache hrun
    simp [ExecuteCommand, hs, decideExecutionMode_process E cmd hstd,
      executeProcess, hred, hcache, hrun, runExitCode]
  · intro c out errT hs hstd hred hcache hrun
    simp [ExecuteCommand, hs, decideExecutionMode_process E cmd hstd,
      executeProcess, hred, hcache, hrun, runExitCode]

/-- C4 witness: the four failure shapes at concrete inputs — a security
rejection, an unsupported redirect operator, a spawn failure, and a real
process exit code 7. -/
theorem C4_witness :
    (ExecuteCommand EsecReject ⟨"ls", [], none⟩ st0 =
      ({ command := ⟨"ls", [], none⟩, success := false, exitCode := 1,
         error := "Security violation: dangerous command: rm" }, st0)) ∧
    (ExecuteCommand E0 ⟨"ls", [], some ⟨"<<", "f", 1⟩⟩ st0 =
      ({ command := ⟨"ls", [], some ⟨"<<", "f", 1⟩⟩, success := false,
         exitCode := 1,
         error := "redirect error: unsupported redirect operator: <<",
         mode := .process }, st0)) ∧
    ((ExecuteCommand EspawnFail ⟨"ls", [], none⟩ st0).1.success = false ∧
     (ExecuteCommand EspawnFail ⟨"ls", [], none⟩ st0).1.exitCode = 1) ∧
    ((ExecuteCommand Eexit7 ⟨"ls", [], none⟩ st0).1.success = false ∧
     (ExecuteCommand Eexit7 ⟨"ls", [], none⟩ st0).1.exitCode = 7) :=
  ⟨(C4_recoverable_failures_in_band EsecReject ⟨"ls", [], none⟩ st0).1
      "dangerous command: rm" rfl,
   (C4_recoverable_failures_in_band E0 ⟨"ls", [], some ⟨"<<", "f", 1⟩⟩ st0).2.1
      ⟨"<<", "f", 1⟩ "unsupported redirect operator: <<" rfl rfl rfl rfl,
   (C4_recoverable_failures_in_band EspawnFail ⟨"ls", [], none⟩ st0).2.2.1
      "exec: executable file not found in $PATH" "" "" rfl rfl rfl rfl rfl,
   (C4_recoverable_failures_in_band Eexit7 ⟨"ls", [], none⟩ st0).2.2.2
      7 "" "boom" rfl rfl rfl rfl rfl⟩

/-- C8.  ExecuteIf on a command condition runs the condition command,
takes its truth value to be success together with exit code 0, executes
the then-script when true, the else-script when false and present, and
otherwise returns a success result with exit code 0 and no command
results; a condition of any other node kind is a fatal engine-level
error, not a CommandResult. -/
theorem C8_if_semantics (E : Engine) (t : List Node) (e : Option (List Node))
    (st : EngineState) :
    (∀ c, ExecuteIf E (.command c) t e st =
      (if ((ExecuteCommand E c st).1.success &&
            (ExecuteCommand E c st).1.exitCode == 0) then
        Execute E t (ExecuteCommand E c st).2
      else
        match e with
        | some els => Execute E els (ExecuteCommand E c st).2
        | none => .ok ({ success := true, exitCode := 0, commands := [] },
                       (ExecuteCommand E c st).2))) ∧
    (∀ cond, (∀ c, cond ≠ Node.command c) →
      ExecuteIf E cond t e st =
        .error ("unsupported condition node type: " ++ nodeTypeName cond)) := by
  constructor
  · intro c
    rcases hEC : ExecuteCommand E c st with ⟨r, st1⟩
    rw [ExecuteIf]
    simp only [evaluateCondition, hEC, Execute]
  · intro cond hne
    cases cond with
    | command c => exact absurd rfl (hne c)
    | pipe l r => rw [ExecuteIf]; simp [evaluateCondition, nodeTypeName]
    | ifN c t1 e1 => rw [ExecuteIf]; simp [evaluateCondition, nodeTypeName]
    | forN v l b => rw [ExecuteIf]; simp [evaluateCondition, nodeTypeName]
    | whileN c b => rw [ExecuteIf]; simp [evaluateCondition, nodeTypeName]
    | assignment n v => rw [ExecuteIf]; simp [evaluateCondition, nodeTypeName]
    | function => rw [ExecuteIf]; simp [evaluateCondition, nodeTypeName]

/-- C8 witness: a true condition instance and a non-command condition
instance. -/
theorem C8_witness :
    (ExecuteIf E0 (.command ⟨"Print", ["x"], none⟩) [] none st0 =
      (if ((ExecuteCommand E0 ⟨"Print", ["x"], none⟩ st0).1.success &&
            (ExecuteCommand E0 ⟨"Print", ["x"], none⟩ st0).1.exitCode == 0) then
        Execute E0 [] (ExecuteCommand E0 ⟨"Print", ["x"], none⟩ st0).2
      else
        .ok ({ success := true, exitCode := 0, commands := [] },
             (ExecuteCommand E0 ⟨"Print", ["x"], none⟩ st0).2))) ∧
    (ExecuteIf E0 (.assignment "x" "y") [] none st0 =
      .error "unsupported condition node type: *types.AssignmentNode") :=
  ⟨(C8_if_semantics E0 [] none st0).1 ⟨"Print", ["x"], none⟩,
   (C8_if_semantics E0 [] none st0).2 (.assignment "x" "y")
     (fun _ hc => Node.noConfusion hc)⟩

/-- Membership after an association-list update comes from the old list
or is exactly the new binding. -/
theorem assocSet_mem {α β : Type} [DecidableEq α] (c : List (α × β)) (k : α)
    (v : β) : ∀ e, e ∈ assocSet c k v → e ∈ c ∨ e = (k, v) := by
  induction c with
  | nil =>
    intro e he
    simp [assocSet] at he
    right
    exact he
  | cons hd tl ih =>
    intro e he
    rcases hd with ⟨k0, v0⟩
    by_cases hk : k0 = k
    · simp only [assocSet, if_pos hk, List.mem_cons] at he
      rcases he with rfl | he
      · right; rfl
      · left; exact List.mem_cons_of_mem _ he
    · simp only [assocSet, if_neg hk, List.mem_cons] at he
      rcases he with rfl | he
      · left; exact List.mem_cons_self _ _
      · rcases ih e he with h | h
        · left; exact List.mem_cons_of_mem _ h
        · right; exact h

/-- Cache-shape characterization of executeProcess: either the cache is
left exactly as it was, or the command had no redirect and the cache
gained precisely the produced result, which succeeded with exit code 0. -/
theorem executeProcess_cache_cases (E : Engine) (cmd : CommandNode)
    (st : EngineState) :
    (executeProcess E cmd st).2.cache = st.cache ∨
    (cmd.redirect = none ∧
     (executeProcess E cmd st).2.cache =
       cachePut st.cache cmd.name cmd.args (executeProcess E cmd st).1 ∧
     (executeProcess E cmd st).1.success = true ∧
     (executeProcess E cmd st).1.exitCode = 0 ∧
     (executeProcess E cmd st).1.command = cmd) := by
  rcases hred : cmd.redirect with _ | r
  · rcases hhit : cacheGet st.cache cmd.name cmd.args with _ | cached
    · rcases ho : E.runProc st.procCalls cmd none with ⟨run, out, errT⟩
      cases run with
      | noErr =>
        right
        refine ⟨rfl, ?_, ?_, ?_, ?_⟩ <;>
          simp [executeProcess, hred, hhit, ho, runExitCode]
      | exitErr c => left; simp [executeProcess, hred, hhit, ho]
      | other m => left; simp [executeProcess, hred, hhit, ho]
    · left; simp [executeProcess, hred, hhit]
  · left
    rcases hsetup : setupRedirect r st.fs with msg | plan
    · simp [executeProcess, hred, hsetup]
    · rcases ho : E.runProc st.procCalls cmd plan.stdinText with ⟨run, out, errT⟩
      cases run <;> simp [executeProcess, hred, hsetup, ho]

/-- C6.  Process-mode execution stores a result into the command cache
only for redirect-free commands whose run succeeded (every cache entry
added is successful with exit code 0 and a redirect-free command), a
redirected command neither consults the cache (its result is unchanged
under any replacement of the cache) nor writes to it, and consequently
the entry invariant — present implies redirect-free and exit code 0 —
is preserved by every process-mode execution. -/
theorem C6_cache_entry_invariant (E : Engine) (cmd : CommandNode)
    (st : EngineState) :
    (∀ entry, entry ∈ (executeProcess E cmd st).2.cache →
      entry ∈ st.cache ∨
      (entry.2.success = true ∧ entry.2.exitCode = 0 ∧
       entry.2.command.redirect = none)) ∧
    (∀ r, cmd.redirect = some r →
      (executeProcess E cmd st).2.cache = st.cache ∧
      ∀ c', (executeProcess E cmd { st with cache := c' }).1 =
        (executeProcess E cmd st).1) ∧
    ((∀ entry, entry ∈ st.cache →
        entry.2.success = true ∧ entry.2.exitCode = 0 ∧
        entry.2.command.redirect = none) →
      ∀ entry, entry ∈ (executeProcess E cmd st).2.cache →
        entry.2.success = true ∧ entry.2.exitCode = 0 ∧
        entry.2.command.redirect = none) := by
  have hcases := executeProcess_cache_cases E cmd st
  refine ⟨?_, ?_, ?_⟩
  · intro entry hmem
    rcases hcases with h | ⟨hred, hput, hsucc, hexit, hcmd⟩
    · left; rw [h] at hmem; exact hmem
    · rw [hput] at hmem
      rcases assocSet_mem st.cache (cmd.name, cmd.args)
          (executeProcess E cmd st).1 entry hmem with h | h
      · left; exact h
      · right
        subst h
        exact ⟨hsucc, hexit, by rw [hcmd, hred]⟩
  · intro r hred
    constructor
    · rcases hcases with h | ⟨hnone, _⟩
      · exact h
      · rw [hred] at hnone; cases hnone
    · intro c'
      rcases hsetup : setupRedirect r st.fs with msg | plan <;>
        simp [executeProcess, hred, hsetup]
  · intro hinv entry hmem
    rcases hcases with h | ⟨hred, hput, hsucc, hexit, hcmd⟩
    · rw [h] at hmem; exact hinv entry hmem
    · rw [hput] at hmem
      rcases assocSet_mem st.cache (cmd.name, cmd.args)
          (executeProcess E cmd st).1 entry hmem with h | h
      · exact hinv entry h
      · subst h
        exact ⟨hsucc, hexit, by rw [hcmd, hred]⟩

/-- C6 witness: at a concrete successful redirect-free run from the
empty cache, the resulting single entry is covered by the invariant. -/
theorem C6_witness :
    ((("ls", ([] : List String)),
      ({ command := ⟨"ls", [], none⟩, success := true, exitCode := 0,
         output := "out", error := "" } : CommandResult)) ∈ st0.cache) ∨
    (({ command := ⟨"ls", [], none⟩, success := true, exitCode := 0,
        output := "out", error := "" } : CommandResult).success = true ∧
     ({ command := ⟨"ls", [], none⟩, success := true, exitCode := 0,
        output := "out", error := "" } : CommandResult).exitCode = 0 ∧
     ({ command := ⟨"ls", [], none⟩, success := true, exitCode := 0,
        output := "out", error := "" } : CommandResult).command.redirect = none) :=
  (C6_cache_entry_invariant E0 ⟨"ls", [], none⟩ st0).1
    (("ls", ([] : List String)),
     ({ command := ⟨"ls", [], none⟩, success := true, exitCode := 0,
        output := "out", error := "" } : CommandResult))
    (by decide)

/-- The engine's pipe-tree flattening agrees with the spec-side in-order
traversal. -/
theorem collectPipelineCommands_eq_spec (n : Node) :
    collectPipelineCommands n = specInOrderCommands n := by
  match n with
  | .pipe l r =>
    simp [collectPipelineCommands, specInOrderCommands,
      collectPipelineCommands_eq_spec l, collectPipelineCommands_eq_spec r]
  | .command c => rfl
  | .ifN c t e => rfl
  | .forN v l b => rfl
  | .whileN c b => rfl
  | .assignment a b => rfl
  | .function => rfl

/-- The engine's pipeline loop agrees with the spec-side stage driver:
the first-stage flag with junk previous output corresponds to ambient
stdin (`none`), and a later stage's flag with the previous captured
output corresponds to supplied stdin (`some`). -/
theorem pipelineLoop_eq_specRunStages (E : Engine) (cs : List CommandNode) :
    ∀ (c : CommandNode) (stdin : Option String) (acc : List CommandResult)
      (st : EngineState),
      pipelineLoop E (c :: cs) stdin.isNone (stdin.getD "") acc st =
        specRunStages E c cs stdin acc st := by
  induction cs with
  | nil =>
    intro c stdin acc st
    cases stdin with
    | none =>
      simp only [Option.isNone_none, Option.getD_none]
      rcases hEC : ExecuteCommand E c st with ⟨r, st'⟩
      rw [pipelineLoop.eq_2, specRunStages.eq_def, hEC]
      cases hr : r.success <;>
        simp [hr, hEC, pipelineLoop, List.getLast?_concat]
    | some s =>
      simp only [Option.isNone_some, Option.getD_some]
      rcases hW : ExecuteCommandWithInput E c s st with e | ⟨r, st'⟩ <;>
        rw [pipelineLoop.eq_2, specRunStages.eq_def, hW]
      · simp [hW]
      · cases hr : r.success <;>
          simp [hr, hW, pipelineLoop, List.getLast?_concat]
  | cons c' rest' ih =>
    intro c stdin acc st
    cases stdin with
    | none =>
      simp only [Option.isNone_none, Option.getD_none]
      rcases hEC : ExecuteCommand E c st with ⟨r, st'⟩
      rw [pipelineLoop.eq_2, specRunStages.eq_def, hEC]
      cases hr : r.success <;>
        simp only [hr, hEC, Bool.false_eq_true, reduceIte, if_true, if_false,
          ite_true, ite_false]
      exact ih c' (some r.output) (acc ++ [r]) st'
    | some s =>
      simp only [Option.isNone_some, Option.getD_some]
      rcases hW : ExecuteCommandWithInput E c s st with e | ⟨r, st'⟩ <;>
        rw [pipelineLoop.eq_2, specRunStages.eq_def, hW]
      · simp [hW]
      · cases hr : r.success <;>
          simp only [hr, hW, Bool.false_eq_true, reduceIte, if_true, if_false,
            ite_true, ite_false]
        exact ih c' (some r.output) (acc ++ [r]) st'

/-- C2.  ExecutePipeline first flattens the binary pipe tree by in-order
traversal (left subtree fully before right), then runs the stages
exactly as the spec-side driver prescribes: stage 0 with no supplied
stdin, every later stage with the previous stage's fully captured output
as its stdin, halting at the first failing stage with that stage's exit
code and error and only the results so far, and returning exit code 0
with the last stage's output when every stage succeeds. -/
theorem C2_pipeline_refines_spec :
    (∀ n : Node, collectPipelineCommands n = specInOrderCommands n) ∧
    (∀ (E : Engine) (p : Node) (st : EngineState) (c : CommandNode)
        (cs : List CommandNode),
      collectPipelineCommands p = c :: cs →
      ExecutePipeline E p st = specRunStages E c cs none [] st) := by
  constructor
  · exact collectPipelineCommands_eq_spec
  · intro E p st c cs h
    unfold ExecutePipeline
    rw [h]
    exact pipelineLoop_eq_specRunStages E cs c none [] st

/-- The two-stage pipeline `a | b`. -/
def pipeAB : Node := .pipe (.command ⟨"a", [], none⟩) (.command ⟨"b", [], none⟩)

/-- C2 witness: the two-stage pipeline at the benign engine. -/
theorem C2_witness :
    ExecutePipeline E0 pipeAB st0 =
      specRunStages E0 ⟨"a", [], none⟩ [⟨"b", [], none⟩] none [] st0 :=
  C2_pipeline_refines_spec.2 E0 pipeAB st0 ⟨"a", [], none⟩ [⟨"b", [], none⟩] rfl

/-- Three sequential commands: the second (`ReadFile` with no argument)
fails with exit code 1, the first and third succeed. -/
def scriptC1 : List Node :=
  [.command ⟨"Print", ["a"], none⟩,
   .command ⟨"ReadFile", [], none⟩,
   .command ⟨"Print", ["c"], none⟩]

/-- C1 (bug evaluation).  On three sequential commands whose second
fails, Execute runs the third anyway and returns success=true with all
three command results: the failing branch's `break` exits only the Go
`switch`, and the trailing `result.Success = true` overwrites the
failure flag, so the claimed short-circuit (success=false, exit code of
node 2, exactly 2 results) does not happen. -/
theorem C1_execute_continues_past_failing_node :
    Execute E0 scriptC1 st0 =
      .ok ({ success := true, exitCode := 1, output := "", error := "",
             commands :=
               [{ command := ⟨"Print", ["a"], none⟩, success := true,
                  exitCode := 0, output := "a" },
                { command := ⟨"ReadFile", [], none⟩, success := false,
                  exitCode := 1,
                  error := "ReadFile requires filename argument" },
                { command := ⟨"Print", ["c"], none⟩, success := true,
                  exitCode := 0, output := "c" }] },
           { st0 with stdout := "ac" }) := by
  simp [Execute, ExecuteNodes, scriptC1, ExecuteCommand, E0, decideExecutionMode,
    isStdLibFunction, executeInterpreted, executeStdLibFunction, st0]

/-- An always-true condition with no side effect: the intrinsic `Print`
with no arguments succeeds with exit code 0 and changes nothing. -/
def condTrue : Node := .command ⟨"Print", [], none⟩

/-- A body whose only command always fails (`ReadFile` with no
argument) without changing the state. -/
def bodyFail : List Node := [.command ⟨"ReadFile", [], none⟩]

/-- A process-mode condition command; its `2>&1` redirect keeps the
command-cache out of play so every evaluation reaches the oracle. -/
def condExt : Node := .command ⟨"loopcond", [], some ⟨"2>&1", "", 2⟩⟩

/-- An engine whose external processes succeed on the first 9999
attempts and exit 1 on every later attempt, so a process condition is
true for exactly its first 9999 evaluations. -/
def E2 : Engine :=
  { E0 with runProc := fun n _ _ =>
      if n < 9999 then ⟨.noErr, "", ""⟩ else ⟨.exitErr 1, "", ""⟩ }

/-- With the always-true side-effect-free condition and an empty body,
every fuel level ends in the fatal iteration-ceiling error. -/
theorem whileTrueAux (fuel : Nat) :
    ∀ (acc : ExecutionResult) (st : EngineState),
      ExecuteWhileAux E0 fuel condTrue [] acc st =
        .error "while loop exceeded maximum iterations (10000)" := by
  induction fuel with
  | zero => intro acc st; simp [ExecuteWhileAux]
  | succ n ih =>
    intro acc st
    simp [ExecuteWhileAux, evaluateCondition, condTrue, ExecuteCommand, E0,
      decideExecutionMode, isStdLibFunction, executeInterpreted,
      executeStdLibFunction, ExecuteNodes]
    exact ih acc st

/-- With the always-true condition and the always-failing body, every
fuel level still ends in the fatal iteration-ceiling error: the body's
failure is invisible because Execute reports the body script as
successful. -/
theorem whileBodyFailAux (fuel : Nat) :
    ∀ (acc : ExecutionResult) (st : EngineState),
      ExecuteWhileAux E0 fuel condTrue bodyFail acc st =
        .error "while loop exceeded maximum iterations (10000)" := by
  induction fuel with
  | zero => intro acc st; simp [ExecuteWhileAux]
  | succ n ih =>
    intro acc st
    simp [ExecuteWhileAux, evaluateCondition, condTrue, bodyFail,
      ExecuteCommand, E0, decideExecutionMode, isStdLibFunction,
      executeInterpreted, executeStdLibFunction, ExecuteNodes]
    exact ih _ st

/-- With the condition that turns false at its 10,000th evaluation, the
loop terminates normally on exactly its last allowed iteration: the
process-call counter ends at 10,000 and no fatal error occurs. -/
theorem whileExactAux (fuel : Nat) :
    ∀ (st : EngineState) (acc : ExecutionResult),
      st.procCalls + fuel = 10000 → st.procCalls ≤ 9999 →
      ExecuteWhileAux E2 fuel condExt [] acc st =
        .ok ({ acc with success := true, exitCode := 0 },
             { st with procCalls := 10000 }) := by
  induction fuel with
  | zero => intro st acc h1 h2; exact absurd h1 (by omega)
  | succ n ih =>
    intro st acc h1 h2
    by_cases hp : st.procCalls < 9999
    · simp [ExecuteWhileAux, evaluateCondition, condExt, ExecuteCommand,
        E2, E0, decideExecutionMode, isStdLibFunction, isExternalCommandAvailable,
        executeProcess, cacheGet, setupRedirect, writeOut, runExitCode,
        RunErr.ran, ExecuteNodes, hp]
      exact ih { st with procCalls := st.procCalls + 1 } acc
        (by simp; omega) (by simp; omega)
    · have hp9 : st.procCalls = 9999 := by omega
      simp [ExecuteWhileAux, evaluateCondition, condExt, ExecuteCommand, E2, E0,
        decideExecutionMode, isStdLibFunction, isExternalCommandAvailable,
        executeProcess, cacheGet, setupRedirect, writeOut, runExitCode,
        RunErr.ran, hp9]

/-- C3 (bug evaluation plus the true half).  With an always-true
condition ExecuteWhile aborts with the fatal iteration-ceiling error
(first conjunct), and a condition that turns false at its 10,000th
evaluation is still seen — the loop then ends normally with the
process-call counter at exactly 10,000, so the abort is never earlier
than the 10,000th evaluation (second conjunct).  But the claim's
body-failure half fails on the code: with an always-true condition and
an always-failing body the loop never returns the claimed non-fatal
failing result — Execute stamps the body script successful, so the loop
runs to the ceiling and aborts fatally (third conjunct). -/
theorem C3_while_ceiling_exact_and_body_failure_lost :
    (∀ st : EngineState, ExecuteWhile E0 condTrue [] st =
      .error "while loop exceeded maximum iterations (10000)") ∧
    (ExecuteWhile E2 condExt [] st0 =
      .ok ({ success := true, exitCode := 0, output := "", error := "",
             commands := [] },
           { st0 with procCalls := 10000 })) ∧
    (∀ st : EngineState, ExecuteWhile E0 condTrue bodyFail st =
      .error "while loop exceeded maximum iterations (10000)") := by
  refine ⟨?_, ?_, ?_⟩
  · intro st
    exact whileTrueAux 10000 {} st
  · exact whileExactAux 10000 st0 {} rfl (by simp [st0])
  · intro st
    exact whileBodyFailAux 10000 {} st

end Shode
